import Mathlib

/-!
Verification of the job orchestrator in `src/app/api/sessions/upload/route.ts`.

The source file contains two concatenated variants of the puppeteer manager:
variant A (lines 59-559) and variant B (lines 561-1076).  Both are embedded
below; definitions carry the suffix `A` or `B` where the variants differ.

Browser-driving steps (`puppeteer.launch`, `page.goto`, `waitForSelector`,
clicks, typing) are nondeterministic I/O; each workflow model takes an
environment record whose boolean fields state whether the corresponding
awaited operation succeeds.  Operations whose failure the source suppresses
with `.catch(() => ...)` are modelled as behaviour-invariant.  Unless a claim
depends on it, `browser.close()` inside a workflow is modelled as succeeding;
its failure handling is modelled explicitly in `stopAllRun`, where the source
branches on it.
-/

namespace FBBot

/-- One CSV account record (`type Account`, route.ts line 79/581). -/
structure Account where
  nomorAkun : String
  email : String
  password : String
  deriving DecidableEq, Repr

/-- Model of node's `path.join(a, b)` for the two-argument uses in the source. -/
def pathJoin (a b : String) : String := a ++ "/" ++ b

/-- Default of `process.env.DATA_DIR` (route.ts line 76/578). -/
def dataDir : String := "./data"

/-- Characters kept by `sanitizeName` : the class `[a-z0-9_.@-]` with the `i`
flag, i.e. ASCII letters of either case, digits, and `_` `.` `@` `-`. -/
def allowedChar (c : Char) : Bool :=
  (('a' ≤ c && c ≤ 'z') || ('A' ≤ c && c ≤ 'Z') || c.isDigit
    || c = '_' || c = '.' || c = '@' || c = '-')

/-- Replacement applied to a single character by
`s.replace(/[^a-z0-9_.@-]/ig, m)` with replacement `_`. -/
def sanitizeChar (c : Char) : Char :=
  if allowedChar c then c else '_'

/-- `sanitizeName` (route.ts lines 86-88 and 588-590): every character outside
the allowed class is replaced by an underscore. -/
def sanitizeName (s : String) : String :=
  String.mk (s.data.map sanitizeChar)

/-- `ensureUserDir` (route.ts lines 96-100): the per-tenant root directory. -/
def ensureUserDir (userId : String) : String := pathJoin dataDir userId

theorem sanitizeChar_idem (c : Char) : sanitizeChar (sanitizeChar c) = sanitizeChar c := by
  unfold sanitizeChar
  by_cases h : allowedChar c = true
  · simp [h]
  · simp [h]

theorem allowedChar_sanitizeChar (c : Char) : allowedChar (sanitizeChar c) = true := by
  unfold sanitizeChar
  by_cases h : allowedChar c = true
  · simp [h]
  · simp [h]
    decide

/-- C9: sanitization is idempotent, and every character of the output lies in
the allowed class `[a-zA-Z0-9_.@-]` (each character outside the class,
case-insensitively, is replaced by an underscore). -/
theorem claim9_sanitize (s : String) :
    sanitizeName (sanitizeName s) = sanitizeName s
      ∧ (sanitizeName s).data.all allowedChar = true := by
  constructor
  · have h : ∀ l : List Char, (l.map sanitizeChar).map sanitizeChar = l.map sanitizeChar := by
      intro l
      induction l with
      | nil => rfl
      | cons c t ih => simp [ih, sanitizeChar_idem]
    unfold sanitizeName
    exact congrArg String.mk (h s.data)
  · unfold sanitizeName
    simp [List.all_eq_true]
    intro c _
    exact allowedChar_sanitizeChar c

/-! ### Post+Comment discovery: the URL shape filter (claim C8)

The source filters scanned anchor hrefs with
`const urlsPattern = /facebook\.com\/groups\/\d+\/?$/; urlsPattern.test(url)`
(route.ts lines 1014/1018, identically 497/501).  The regex is anchored only
at the end of the string: it matches any string that ends with
`facebook.com/groups/<digits>` followed by at most one trailing slash. -/

/-- The literal segment of the discovery regex. -/
def grpLit : List Char := "facebook.com/groups/".data

/-- Suffix test on a slash-stripped character list: a nonempty run of digits
at the end, preceded by the literal `facebook.com/groups/`. -/
def urlCore (cs : List Char) : Bool :=
  (!(cs.reverse.takeWhile Char.isDigit).isEmpty)
    && List.isPrefixOf grpLit.reverse (cs.reverse.dropWhile Char.isDigit)

/-- Model of `urlsPattern.test(url)` for `/facebook\.com\/groups\/\d+\/?$/`:
strip one optional trailing slash, then require the remaining string to end
in `facebook.com/groups/` followed by one or more digits. -/
def urlsPatternTest (s : String) : Bool :=
  urlCore (if s.data.getLast? = some '/' then s.data.dropLast else s.data)

theorem takeWhile_dropWhile_app (p : Char → Bool) (xs : List Char) (y : Char) (ys : List Char)
    (hxs : ∀ c ∈ xs, p c = true) (hy : p y = false) :
    (xs ++ y :: ys).takeWhile p = xs ∧ (xs ++ y :: ys).dropWhile p = y :: ys := by
  induction xs with
  | nil => simp [List.takeWhile_cons, List.dropWhile_cons, hy]
  | cons x t ih =>
    have hx : p x = true := hxs x (by simp)
    have ht := ih (fun c hc => hxs c (by simp [hc]))
    simp [List.takeWhile_cons, List.dropWhile_cons, hx, ht.1, ht.2]

theorem grpLitRev : grpLit.reverse = '/' :: "facebook.com/groups".data.reverse := by decide

theorem urlCore_fwd (cs : List Char) (h : urlCore cs = true) :
    ∃ a d : List Char, d ≠ [] ∧ (∀ c ∈ d, c.isDigit = true) ∧ cs = a ++ grpLit ++ d := by
  rcases Bool.and_eq_true_iff.mp h with ⟨h1, h2⟩
  have hpre := List.isPrefixOf_iff_prefix.mp h2
  rcases hpre with ⟨t, ht⟩
  have hsplit : cs.reverse.takeWhile Char.isDigit ++ cs.reverse.dropWhile Char.isDigit
      = cs.reverse := List.takeWhile_append_dropWhile Char.isDigit cs.reverse
  refine ⟨t.reverse, (cs.reverse.takeWhile Char.isDigit).reverse, ?_, ?_, ?_⟩
  · intro h0
    have : cs.reverse.takeWhile Char.isDigit = [] := List.reverse_eq_nil_iff.mp h0
    rw [this] at h1
    simp at h1
  · intro c hc
    have : c ∈ cs.reverse.takeWhile Char.isDigit := List.mem_reverse.mp hc
    exact List.mem_takeWhile_imp this
  · have : cs.reverse = cs.reverse.takeWhile Char.isDigit ++ (grpLit.reverse ++ t) := by
      rw [ht, hsplit]
    calc cs = cs.reverse.reverse := (List.reverse_reverse cs).symm
      _ = (cs.reverse.takeWhile Char.isDigit ++ (grpLit.reverse ++ t)).reverse := by rw [← this]
      _ = t.reverse ++ grpLit ++ (cs.reverse.takeWhile Char.isDigit).reverse := by
            simp [List.reverse_append, List.append_assoc]

theorem urlCore_bwd (a d : List Char) (hd : d ≠ []) (hdig : ∀ c ∈ d, c.isDigit = true) :
    urlCore (a ++ grpLit ++ d) = true := by
  have hrev : (a ++ grpLit ++ d).reverse
      = d.reverse ++ '/' :: ("facebook.com/groups".data.reverse ++ a.reverse) := by
    simp [List.reverse_append, grpLitRev, List.append_assoc]
  have hxs : ∀ c ∈ d.reverse, Char.isDigit c = true := by
    intro c hc
    exact hdig c (List.mem_reverse.mp hc)
  have hy : Char.isDigit '/' = false := by decide
  have htw := takeWhile_dropWhile_app Char.isDigit d.reverse '/'
    ("facebook.com/groups".data.reverse ++ a.reverse) hxs hy
  have hne : d.reverse ≠ [] := by
    intro h0
    exact hd (by simpa using congrArg List.reverse h0)
  unfold urlCore
  rw [hrev, htw.1, htw.2]
  refine Bool.and_eq_true_iff.mpr ⟨?_, ?_⟩
  · rcases List.exists_cons_of_ne_nil hne with ⟨x, xs, hx⟩
    rw [hx]
    rfl
  · have : grpLit.reverse <+: '/' :: ("facebook.com/groups".data.reverse ++ a.reverse) := by
      rw [grpLitRev]
      exact ⟨a.reverse, by simp⟩
    exact List.isPrefixOf_iff_prefix.mpr this

/-- Characterization of the discovery filter: a URL passes the regex test iff
it ends with `facebook.com/groups/` followed by a nonempty digit run and at
most one trailing slash. -/
theorem urlsPatternTest_iff (s : String) :
    urlsPatternTest s = true ↔
      ∃ a d : List Char, d ≠ [] ∧ (∀ c ∈ d, c.isDigit = true)
        ∧ (s.data = a ++ grpLit ++ d ∨ s.data = a ++ grpLit ++ d ++ ['/']) := by
  unfold urlsPatternTest
  by_cases h : s.data.getLast? = some '/'
  · rw [if_pos h]
    constructor
    · intro hc
      rcases urlCore_fwd _ hc with ⟨a, d, hd, hdig, heq⟩
      refine ⟨a, d, hd, hdig, Or.inr ?_⟩
      have hne : s.data ≠ [] := by
        intro h0
        rw [h0] at h
        simp at h
      have hlast : s.data.getLast hne = '/' := by
        have hx := List.getLast?_eq_getLast s.data hne
        rw [hx] at h
        exact Option.some_injective _ h
      have hrec : s.data.dropLast ++ [s.data.getLast hne] = s.data :=
        List.dropLast_append_getLast hne
      rw [hlast, heq] at hrec
      rw [← hrec]
    · rintro ⟨a, d, hd, hdig, heq | heq⟩
      · -- impossible: the last character would be a digit, not a slash
        exfalso
        have hlast2 : d.getLast? = some (d.getLast hd) := List.getLast?_eq_getLast d hd
        have hS : s.data.getLast? = some (d.getLast hd) := by
          rw [heq, List.append_assoc, List.getLast?_append, List.getLast?_append, hlast2]
          simp
        rw [hS] at h
        have hdl : d.getLast hd = '/' := Option.some_injective _ h
        have hdig2 := hdig _ (List.getLast_mem hd)
        rw [hdl] at hdig2
        simp at hdig2
      · have hdl : s.data.dropLast = a ++ grpLit ++ d := by
          rw [heq]
          rw [show a ++ grpLit ++ d ++ ['/'] = (a ++ grpLit ++ d) ++ ['/'] by simp [List.append_assoc]]
          exact List.dropLast_concat
        rw [hdl]
        exact urlCore_bwd a d hd hdig
  · rw [if_neg h]
    constructor
    · intro hc
      rcases urlCore_fwd _ hc with ⟨a, d, hd, hdig, heq⟩
      exact ⟨a, d, hd, hdig, Or.inl heq⟩
    · rintro ⟨a, d, hd, hdig, heq | heq⟩
      · rw [heq]
        exact urlCore_bwd a d hd hdig
      · exfalso
        apply h
        rw [heq]
        rw [show a ++ grpLit ++ d ++ ['/'] = (a ++ grpLit ++ d) ++ ['/'] by simp [List.append_assoc]]
        exact List.getLast?_concat _

/-- Splits a character list at the first occurrence of `sep`, returning the
parts before and after it. -/
def splitFirst (sep : List Char) : List Char → Option (List Char × List Char)
  | [] => none
  | c :: cs =>
    if List.isPrefixOf sep (c :: cs) then some ([], (c :: cs).drop sep.length)
    else
      match splitFirst sep cs with
      | some p => some (c :: p.1, p.2)
      | none => none

theorem splitFirst_eq (sep : List Char) :
    ∀ l a b : List Char, splitFirst sep l = some (a, b) → l = a ++ sep ++ b := by
  intro l
  induction l with
  | nil => intro a b hab; simp [splitFirst] at hab
  | cons c cs ih =>
    intro a b hab
    rw [splitFirst] at hab
    by_cases hp : List.isPrefixOf sep (c :: cs) = true
    · rw [if_pos hp] at hab
      rcases List.isPrefixOf_iff_prefix.mp hp with ⟨t, ht⟩
      injection hab with hab'
      have h1 : a = [] := (congrArg Prod.fst hab').symm
      have h2 : b = (c :: cs).drop sep.length := (congrArg Prod.snd hab').symm
      rw [h1, h2, ← ht, List.drop_left]
      simp
    · rw [if_neg hp] at hab
      cases hrec : splitFirst sep cs with
      | none => rw [hrec] at hab; simp at hab
      | some p =>
        rw [hrec] at hab
        injection hab with hab'
        have h1 : a = c :: p.1 := (congrArg Prod.fst hab').symm
        have h2 : b = p.2 := (congrArg Prod.snd hab').symm
        rw [h1, h2]
        have := ih p.1 p.2 (by rw [hrec])
        simp [this]

/-- Modelled from the claim's words, for comparison with the source's filter:
a URL is exactly a numeric group root when it has the shape
`scheme://host/groups/<digits>` with at most one trailing slash and nothing
else, where the host is `facebook.com` or a subdomain of it. -/
def isNumericGroupRoot (s : String) : Bool :=
  match splitFirst "://".data s.data with
  | none => false
  | some pr =>
    (List.isSuffixOf "facebook.com".data (pr.2.takeWhile (fun c => !decide (c = '/'))))
      && List.isPrefixOf "/groups/".data (pr.2.dropWhile (fun c => !decide (c = '/')))
      && (!(((pr.2.dropWhile (fun c => !decide (c = '/'))).drop
              "/groups/".data.length).takeWhile Char.isDigit).isEmpty)
      && ((((pr.2.dropWhile (fun c => !decide (c = '/'))).drop
              "/groups/".data.length).dropWhile Char.isDigit).isEmpty
          || decide ((((pr.2.dropWhile (fun c => !decide (c = '/'))).drop
              "/groups/".data.length).dropWhile Char.isDigit) = ['/']))

theorem fbLit_append_groups : "facebook.com".data ++ "/groups/".data = grpLit := by decide

/-- Every URL that is exactly a numeric group root passes the source's regex
test (the converse fails: the regex is anchored only at the end). -/
theorem numericGroupRoot_passes (s : String) (h : isNumericGroupRoot s = true) :
    urlsPatternTest s = true := by
  unfold isNumericGroupRoot at h
  cases hsp : splitFirst "://".data s.data with
  | none => rw [hsp] at h; simp at h
  | some pr =>
    rw [hsp] at h
    have hs : s.data = pr.1 ++ "://".data ++ pr.2 :=
      splitFirst_eq "://".data s.data pr.1 pr.2 (by rw [hsp])
    rcases Bool.and_eq_true_iff.mp h with ⟨h123, h4⟩
    rcases Bool.and_eq_true_iff.mp h123 with ⟨h12, h3⟩
    rcases Bool.and_eq_true_iff.mp h12 with ⟨h1, h2⟩
    set host := pr.2.takeWhile (fun c => !decide (c = '/')) with hhost
    set path := pr.2.dropWhile (fun c => !decide (c = '/')) with hpath
    have hsplit2 : host ++ path = pr.2 :=
      List.takeWhile_append_dropWhile (fun c => !decide (c = '/')) pr.2
    rcases List.isSuffixOf_iff_suffix.mp h1 with ⟨hp, hhp⟩
    rcases List.isPrefixOf_iff_prefix.mp h2 with ⟨pt, hpt⟩
    have hptail : path.drop "/groups/".data.length = pt := by
      rw [← hpt, List.drop_left]
    rw [hptail] at h3 h4
    set d := pt.takeWhile Char.isDigit with hd
    set rest := pt.dropWhile Char.isDigit with hrest
    have hdr : d ++ rest = pt := List.takeWhile_append_dropWhile Char.isDigit pt
    have hdnn : d ≠ [] := by
      intro h0
      rw [h0] at h3
      simp at h3
    have hdig : ∀ c ∈ d, c.isDigit = true := by
      intro c hc
      exact List.mem_takeWhile_imp hc
    have hbase : s.data = (pr.1 ++ "://".data ++ hp) ++ grpLit ++ d ++ rest := by
      rw [hs, ← hsplit2, ← hhp, ← hpt, ← hdr, ← fbLit_append_groups]
      simp [List.append_assoc]
    apply (urlsPatternTest_iff s).mpr
    rcases Bool.or_eq_true_iff.mp h4 with h5 | h5
    · have : rest = [] := List.isEmpty_iff.mp h5
      refine ⟨pr.1 ++ "://".data ++ hp, d, hdnn, hdig, Or.inl ?_⟩
      rw [hbase, this]
      simp
    · have : rest = ['/'] := of_decide_eq_true h5
      refine ⟨pr.1 ++ "://".data ++ hp, d, hdnn, hdig, Or.inr ?_⟩
      rw [hbase, this]

/-! ### Session Creation workflow

Variant A: route.ts lines 102-193 (worker body 111-173).  The whole per-item
body sits in one outer `try/catch`; the login steps sit in an inner
`try/catch`; `browser.close()` is awaited inside the outer `try` with no
`finally`.  Variant B: route.ts lines 604-692 (worker body 619-678).  The
body is `try/catch/finally`, with an authenticated-marker probe
(`successSelector`) before and after the login form. -/

/-- One record pushed to `results` by a create-sessions worker.  Fields map
to the object literals pushed in the source; `path`/`message` are `none` when
the corresponding property is absent from the pushed object. -/
structure CreateOutcome where
  nomorAkun : String
  email : String
  ok : Bool
  path : Option String
  message : Option String
  deriving DecidableEq, Repr

/-- The summary object `{ success, failed }` computed from `results` by
`results.filter(r => r.ok === true).length` and `r.ok === false`. -/
structure Summary where
  success : Nat
  failed : Nat
  deriving DecidableEq, Repr

/-- Environment of one variant-A item: success of each awaited browser
operation.  `gotoOk` is the outcome of the initial navigation; the source
suppresses its failure with `.catch(() => ...)` (line 130), so it has no
effect on behaviour. -/
structure CEnvA where
  launchOk : Bool
  newPageOk : Bool
  gotoOk : Bool
  loginFormOk : Bool
  typeOk : Bool
  closeOk : Bool
  deriving DecidableEq, Repr

/-- Observable result of processing one item in variant A. -/
structure CItemResA where
  outcomes : List CreateOutcome
  launched : Bool
  leftOpen : Bool
  reachedLoginWait : Bool
  deriving DecidableEq, Repr

/-- The failure record of variant A (lines 150-155 and 161-166: both the
inner and the outer catch push the same object). -/
def failRecA (acc : Account) : CreateOutcome :=
  { nomorAkun := acc.nomorAkun, email := acc.email, ok := false
  , path := none, message := some "Gagal login atau selector berubah" }

/-- The success record of variant A (lines 143-148). -/
def okRecA (acc : Account) (sessionPath : String) : CreateOutcome :=
  { nomorAkun := acc.nomorAkun, email := acc.email, ok := true
  , path := some sessionPath, message := none }

/-- One iteration of the variant-A worker loop (route.ts lines 112-172):
launch, open a page, navigate (failure suppressed), run the login block in an
inner `try/catch`, then `await browser.close()` inside the outer `try`.  An
exception in `newPage` or in `close` jumps to the outer catch, which pushes a
failure record but performs no close, so the browser stays open. -/
def createItemA (acc : Account) (sessionPath : String) (e : CEnvA) : CItemResA :=
  if !e.launchOk then
    { outcomes := [failRecA acc], launched := false, leftOpen := false
    , reachedLoginWait := false }
  else if !e.newPageOk then
    { outcomes := [failRecA acc], launched := true, leftOpen := true
    , reachedLoginWait := false }
  else
    let inner : CreateOutcome :=
      if e.loginFormOk && e.typeOk then okRecA acc sessionPath else failRecA acc
    if e.closeOk then
      { outcomes := [inner], launched := true, leftOpen := false
      , reachedLoginWait := true }
    else
      { outcomes := [inner, failRecA acc], launched := true, leftOpen := true
      , reachedLoginWait := true }

/-- Environment of one variant-B item.  `launchOk` covers the directory
check, `mkdir` and `puppeteer.launch` (exceptions before `browser` is
assigned); `gotoOk` is the initial navigation, which variant B does not
protect with a catch (line 637); `alreadyAuthed` is the first probe of
`successSelector`; `postLoginAuthed` the probe after submitting the form. -/
structure CEnvB where
  launchOk : Bool
  newPageOk : Bool
  gotoOk : Bool
  alreadyAuthed : Bool
  loginFormOk : Bool
  typeOk : Bool
  postLoginAuthed : Bool
  deriving DecidableEq, Repr

/-- Observable result of processing one item in variant B.  `probed` records
whether control reached the authenticated-marker probe.  The `finally` block
closes the browser whenever it was launched; `close` itself is modelled as
succeeding, so `leftOpen` is false on every path. -/
structure CItemResB where
  outcomes : List CreateOutcome
  launched : Bool
  leftOpen : Bool
  probed : Bool
  deriving DecidableEq, Repr

/-- Variant B's catch-branch record (lines 667-670). -/
def failLaunchB (acc : Account) : CreateOutcome :=
  { nomorAkun := acc.nomorAkun, email := acc.email, ok := false
  , path := none
  , message := some "Gagal membuka browser atau koneksi ke Facebook bermasalah." }

/-- Variant B's already-authenticated success record (lines 642-645). -/
def okExistB (acc : Account) (sessionPath : String) : CreateOutcome :=
  { nomorAkun := acc.nomorAkun, email := acc.email, ok := true
  , path := some sessionPath, message := some "Sesi sudah ada dan valid" }

/-- Variant B's fresh-login success record (lines 654-657). -/
def okLoginB (acc : Account) (sessionPath : String) : CreateOutcome :=
  { nomorAkun := acc.nomorAkun, email := acc.email, ok := true
  , path := some sessionPath, message := some "Login berhasil, sesi baru dibuat" }

/-- Variant B's login-failure record (lines 659-662). -/
def failLoginB (acc : Account) : CreateOutcome :=
  { nomorAkun := acc.nomorAkun, email := acc.email, ok := false
  , path := none
  , message := some "Gagal login: email/password salah atau halaman berubah." }

/-- One iteration of the variant-B worker loop (route.ts lines 620-677). -/
def createItemB (acc : Account) (sessionPath : String) (e : CEnvB) : CItemResB :=
  if !e.launchOk then
    { outcomes := [failLaunchB acc], launched := false, leftOpen := false, probed := false }
  else if !e.newPageOk then
    { outcomes := [failLaunchB acc], launched := true, leftOpen := false, probed := false }
  else if !e.gotoOk then
    { outcomes := [failLaunchB acc], launched := true, leftOpen := false, probed := false }
  else if e.alreadyAuthed then
    { outcomes := [okExistB acc sessionPath], launched := true, leftOpen := false, probed := true }
  else if !e.loginFormOk then
    { outcomes := [failLoginB acc], launched := true, leftOpen := false, probed := true }
  else if !e.typeOk then
    { outcomes := [failLoginB acc], launched := true, leftOpen := false, probed := true }
  else if e.postLoginAuthed then
    { outcomes := [okLoginB acc sessionPath], launched := true, leftOpen := false, probed := true }
  else
    { outcomes := [failLoginB acc], launched := true, leftOpen := false, probed := true }

/-- Cooperative-scheduling event of one variant-B worker item: `susp` marks
an `await` (the worker yields to the event loop there), `out` marks a
`results.push`.  Events are listed in program order. -/
inductive CEv where
  | susp : CEv
  | out : CreateOutcome → CEv
  deriving DecidableEq, Repr

/-- Event trace of one variant-B item.  The first event is always the
suspension at `await puppeteer.launch`, before any push; the trailing `susp`
on launched paths is the `finally` block's `await browser.close()`. -/
def createItemEventsB (acc : Account) (sessionPath : String) (e : CEnvB) : List CEv :=
  CEv.susp ::
    if !e.launchOk then [CEv.out (failLaunchB acc)]
    else CEv.susp ::
      if !e.newPageOk then [CEv.out (failLaunchB acc), CEv.susp]
      else CEv.susp ::
        if !e.gotoOk then [CEv.out (failLaunchB acc), CEv.susp]
        else CEv.susp ::
          if e.alreadyAuthed then [CEv.out (okExistB acc sessionPath), CEv.susp]
          else CEv.susp ::
            if !e.loginFormOk then [CEv.out (failLoginB acc), CEv.susp]
            else CEv.susp ::
              if !e.typeOk then [CEv.out (failLoginB acc), CEv.susp]
              else CEv.susp ::
                if e.postLoginAuthed then [CEv.out (okLoginB acc sessionPath), CEv.susp]
                else [CEv.out (failLoginB acc), CEv.susp]

/-- The records pushed over a whole event trace. -/
def pushesOf (evs : List CEv) : List CreateOutcome :=
  evs.filterMap fun e =>
    match e with
    | CEv.out o => some o
    | CEv.susp => none

/-- The records pushed before the first suspension: exactly what is visible
in `results` at the moment a non-awaiting caller reads it. -/
def pushesBeforeFirstSusp (evs : List CEv) : List CreateOutcome :=
  pushesOf (evs.takeWhile fun e =>
    match e with
    | CEv.out _ => true
    | CEv.susp => false)

/-- The summary derivation shared by both variants (lines 180-181, 684-685):
count of records with `ok === true` and with `ok === false`. -/
def mkSummary (rs : List CreateOutcome) : Summary :=
  { success := (rs.filter fun r => r.ok).length
  , failed := (rs.filter fun r => !r.ok).length }

/-- Return value of a create-sessions orchestration. -/
structure CreateReturn where
  results : List CreateOutcome
  summary : Summary
  deriving DecidableEq, Repr

/-- Variant A's orchestration (lines 102-193).  `Promise.all(workers)` is
awaited (line 177), so the returned `results` hold the outcomes of every
claimed item.  Workers claim strictly increasing indices from the shared
cursor, so the claimed items form a prefix of `accounts`; `claimed` is its
length (`accounts.length` when no cancellation occurs). -/
def startCreateSessionsA (userId : String) (accounts : List Account)
    (envs : Nat → CEnvA) (claimed : Nat) : CreateReturn :=
  let rs := ((accounts.take claimed).enum.map fun p =>
    (createItemA p.2
      (pathJoin (ensureUserDir userId) (sanitizeName p.2.nomorAkun)) (envs p.1)).outcomes).flatten
  { results := rs, summary := mkSummary rs }

/-- The `results` array at the moment variant B returns: each spawned worker
has run synchronously up to its first `await` (claiming one index each), and
`Promise.all(workers)` is not awaited (line 681), so only pushes before the
first suspension are visible. -/
def resultsAtReturnB (userId : String) (accounts : List Account)
    (concurrency : Nat) (envs : Nat → CEnvB) : List CreateOutcome :=
  ((accounts.take concurrency).enum.map fun p =>
    pushesBeforeFirstSusp (createItemEventsB p.2
      (pathJoin (ensureUserDir userId) (sanitizeName p.2.nomorAkun)) (envs p.1))).flatten

/-- Variant B's orchestration return value (lines 604-692): the summary is
computed from `results` as it stands when the un-awaited function body
reaches its `return` (line 688), and the job is deleted at that point. -/
def startCreateSessionsBReturn (userId : String) (accounts : List Account)
    (concurrency : Nat) (envs : Nat → CEnvB) : CreateReturn :=
  let rs := resultsAtReturnB userId accounts concurrency envs
  { results := rs, summary := mkSummary rs }

/-! ### Group Join workflow (route.ts lines 694-805; lines 195-309 are the
same except for the `Join Group` fallback click, which does not change any
observable modelled here). -/

/-- One record pushed to a session's `sessionResults` (the nested `groups`
list): `{ group, ok }` on a completed navigation, `{ group, ok:false,
message }` when `page.goto` throws. -/
structure GroupResult where
  group : String
  ok : Bool
  message : Option String
  deriving DecidableEq, Repr

/-- The nested `summary` object of a join outcome. -/
structure JoinSummary where
  success : Nat
  failed : Nat
  total : Nat
  deriving DecidableEq, Repr

/-- One top-level record pushed to `results` by `startJoinGroups`. -/
structure JoinOutcome where
  session : String
  ok : Bool
  message : String
  summary : JoinSummary
  groups : List GroupResult
  deriving DecidableEq, Repr

/-- Environment of one link iteration: whether `page.goto(link)` succeeds
(its failure is the only path into the catch branch), the error message it
would carry, and whether the join button appears within its bound. -/
structure JEnvLink where
  gotoOk : Bool
  errMessage : String
  joinBtnFound : Bool
  deriving Repr

/-- The body of one link iteration (lines 756-778): on navigation failure
the catch pushes a failed record carrying `err.message`; otherwise the
record's `ok` is whether the join control was found and clicked (the
`Join Group` fallback click leaves `joined` false). -/
def joinLinkStep (link : String) (e : JEnvLink) : GroupResult :=
  if !e.gotoOk then { group := link, ok := false, message := some e.errMessage }
  else if e.joinBtnFound then { group := link, ok := true, message := none }
  else { group := link, ok := false, message := none }

/-- Accumulated observables of a session's per-link loop: the nested
`groups` list, the two counters, and the number of `page.goto(link)` calls
issued. -/
structure JoinLoopOut where
  groups : List GroupResult
  success : Nat
  failed : Nat
  navs : Nat
  deriving DecidableEq, Repr

/-- The per-link loop (lines 756-779): cancellation is polled before each
link and breaks the loop; each entered iteration issues one navigation,
pushes exactly one record and bumps exactly one counter. -/
def joinLinksLoop (linkEnv : Nat → JEnvLink) (stop : Nat → Bool) :
    Nat → List String → JoinLoopOut
  | _, [] => { groups := [], success := 0, failed := 0, navs := 0 }
  | i, link :: rest =>
    if stop i then { groups := [], success := 0, failed := 0, navs := 0 }
    else
      let g := joinLinkStep link (linkEnv i)
      let t := joinLinksLoop linkEnv stop (i + 1) rest
      { groups := g :: t.groups
      , success := if g.ok then t.success + 1 else t.success
      , failed := if g.ok then t.failed else t.failed + 1
      , navs := t.navs + 1 }

/-- One iteration of the join worker loop (lines 724-796): a missing profile
directory short-circuits the session with a single failed outcome before any
browser is launched (lines 734-743); otherwise the link loop runs and one
outcome carrying the nested results and counters is pushed (lines 781-791).
Returns the outcome together with the number of link navigations issued. -/
def joinSessionItem (sessName : String) (dirExists : Bool) (assigned : List String)
    (linkEnv : Nat → JEnvLink) (stop : Nat → Bool) : JoinOutcome × Nat :=
  if !dirExists then
    ({ session := sessName, ok := false, message := "Session folder tidak ditemukan"
     , summary := { success := 0, failed := 1, total := 1 }, groups := [] }, 0)
  else
    let t := joinLinksLoop linkEnv stop 0 assigned
    ({ session := sessName, ok := true, message := "Selesai"
     , summary := { success := t.success, failed := t.failed, total := t.success + t.failed }
     , groups := t.groups }, t.navs)

/-- The link partition of `startJoinGroups` (lines 709-719): a record is
initialised with an empty list per session name, then each link at index
`idx` is appended to the bucket of `sessionNames[Math.floor(idx /
groupsPerSession)]` when that index is in range and dropped otherwise.
When `groupsPerSession` is `0` the JavaScript quotient is `NaN`/`Infinity`
and the range check fails, so every link is dropped.  The bucket map is read
through `groupsBySession[sessName] || []`, modelled as a total function with
default `[]`. -/
def gbsStep (sessionNames : List String) (groupsPerSession : Nat)
    (acc : String → List String) (p : Nat × String) : String → List String :=
  if groupsPerSession = 0 then acc
  else
    match sessionNames.get? (p.1 / groupsPerSession) with
    | some n => fun name => if name = n then acc name ++ [p.2] else acc name
    | none => acc

def groupsBySession (sessionNames groupLinks : List String)
    (groupsPerSession : Nat) : String → List String :=
  groupLinks.enum.foldl (gbsStep sessionNames groupsPerSession) (fun _ => [])

/-- The `startJoinGroups` orchestration (lines 694-805): the partition is
computed once, before any worker is spawned; each claimed session index is
then processed by `joinSessionItem` against its precomputed bucket.
`Promise.all(workers)` is awaited (line 801). -/
def startJoinGroupsRun (_userId : String) (sessionNames groupLinks : List String)
    (groupsPerSession : Nat) (dirExists : Nat → Bool)
    (linkEnvs : Nat → Nat → JEnvLink) (stops : Nat → Nat → Bool)
    (claimed : Nat) : List (JoinOutcome × Nat) :=
  (sessionNames.take claimed).enum.map fun p =>
    joinSessionItem p.2 (dirExists p.1)
      (groupsBySession sessionNames groupLinks groupsPerSession p.2)
      (linkEnvs p.1) (stops p.1)

/-! ### Post + Comment workflow (route.ts lines 826-1057; lines 311-540 are
an earlier copy with the same record shapes). -/

/-- One record pushed to `results` during `startPostAndComment`.  The first
three shapes carry an `ok` property; the `postRec` records pushed by
`attemptPostingWithRetries` and its comment step carry only
`{ post, comment, message }` and no `ok`. -/
inductive PostResult where
  | sessionMissing : String → PostResult
  | pinnedFailed : String → PostResult
  | groupDone : String → String → Bool → PostResult
  | postRec : Bool → Bool → String → PostResult
  deriving DecidableEq, Repr

/-- The value of `r.ok` as read by the summary filters: `none` models an
absent property (so `r.ok === true` and `r.ok === false` are both false). -/
def okField : PostResult → Option Bool
  | PostResult.sessionMissing _ => some false
  | PostResult.pinnedFailed _ => some false
  | PostResult.groupDone _ _ ok => some ok
  | PostResult.postRec _ _ _ => none

/-- A record carrying an `ok` success flag and an identifying key: an
Outcome in the spec's sense, at the top level of the results list.  The
`postRec` records are auxiliary per-attempt reports, not Outcomes. -/
def isTopLevelOutcome (r : PostResult) : Bool := (okField r).isSome

/-- Terminal reached by one attempt of `attemptPostingWithRetries`:
cancellation observed at a checkpoint (`return false`, nothing pushed), the
post sequence completed (with or without a successful follow-up comment), or
some unprotected step threw. -/
inductive AttemptRes where
  | stopped : AttemptRes
  | success : Bool → AttemptRes
  | failure : String → AttemptRes

/-- The record pushed on a completed post (lines 868-872 etc.): comment
failure keeps `post=true`. -/
def postRecOf (commentOk : Bool) : PostResult :=
  PostResult.postRec true commentOk
    (if commentOk then "Postingan dan komentar berhasil" else "Postingan ditangguhkan")

/-- The retry loop of `attemptPostingWithRetries` (lines 836-967), counting
`attempt` from 1 with `remaining` attempts still allowed: cancellation
returns false with no record; a completed attempt pushes one post record and
returns true; an error retries while attempts remain (page reload and delay,
no record) and otherwise pushes `{ post:false, comment:false, message }` and
returns false. -/
def runAttemptsFrom (att : Nat → AttemptRes) : Nat → Nat → List PostResult × Bool
  | _, 0 => ([], false)
  | attempt, r + 1 =>
    match att attempt with
    | AttemptRes.stopped => ([], false)
    | AttemptRes.success c => ([postRecOf c], true)
    | AttemptRes.failure m =>
      if r = 0 then ([PostResult.postRec false false m], false)
      else runAttemptsFrom att (attempt + 1) r

/-- `attemptPostingWithRetries` with `MAX_ATTEMPTS = 2` (line 834). -/
def attemptPostingWithRetries (att : Nat → AttemptRes) : List PostResult × Bool :=
  runAttemptsFrom att 1 2

/-- The per-url loop of a post worker (lines 1021-1029): cancellation is
polled before each url and breaks; otherwise the attempt records are pushed
followed by one `{ session, group, ok }` record. -/
def postUrlsLoop (sessName : String) (stop : Nat → Bool)
    (atts : Nat → Nat → AttemptRes) : Nat → List String → List PostResult
  | _, [] => []
  | i, url :: rest =>
    if stop i then []
    else
      let pr := attemptPostingWithRetries (atts i)
      pr.1 ++ PostResult.groupDone sessName url pr.2 :: postUrlsLoop sessName stop atts (i + 1) rest

/-- Environment of one post-worker session. -/
structure PEnvSession where
  dirExists : Bool
  stoppedEarly : Bool
  scanOk : Bool
  anchors : List String
  stopAtUrl : Nat → Bool
  atts : Nat → Nat → AttemptRes

/-- One iteration of the post worker loop (lines 983-1037): a missing
profile directory pushes one failed record and continues (lines 987-990); a
cancellation observed before the feed navigation breaks the loop with no
record for the session; a failing pinned-groups scan is caught into one
failed record (lines 1030-1032); otherwise the scanned anchors are filtered
by the discovery regex and each surviving url is processed in order. -/
def postSessionItem (sessName : String) (e : PEnvSession) : List PostResult :=
  if !e.dirExists then [PostResult.sessionMissing sessName]
  else if e.stoppedEarly then []
  else if !e.scanOk then [PostResult.pinnedFailed sessName]
  else postUrlsLoop sessName e.stopAtUrl e.atts 0 (e.anchors.filter urlsPatternTest)

/-- The post summary `{ success, failed }` (lines 1044-1045): filters on
`r.ok === true` and `r.ok === false`, which skip records without `ok`. -/
def mkPostSummary (rs : List PostResult) : Summary :=
  { success := (rs.filter fun r =>
      match okField r with
      | some true => true
      | _ => false).length
  , failed := (rs.filter fun r =>
      match okField r with
      | some false => true
      | _ => false).length }

/-- Return value of `startPostAndComment`. -/
structure PostReturn where
  results : List PostResult
  summary : Summary

/-- The `startPostAndComment` orchestration (lines 973-1057):
`Promise.all(workers)` is awaited (line 1041), claimed session indices form
a prefix, and the summary is derived from the final results list. -/
def startPostAndCommentRun (sessionNames : List String)
    (envs : Nat → PEnvSession) (claimed : Nat) : PostReturn :=
  let rs := ((sessionNames.take claimed).enum.map fun p =>
    postSessionItem p.2 (envs p.1)).flatten
  { results := rs, summary := mkPostSummary rs }

/-! ### Job registry and `stopAll` (route.ts lines 1059-1076, identically
542-559). -/

/-- A live browser handle as seen by `stopAll`: whether `browser.close()`
succeeds, and whether `browser.process()` returns a handle (for a launched
browser puppeteer returns the child process; `null` only for connected
browsers, which this program never creates). -/
structure BrowserH where
  closeOk : Bool
  hasProc : Bool
  deriving DecidableEq, Repr

/-- A registered job: its cancellation flag and owned browser list. -/
structure Job where
  stopRequested : Bool
  browsers : List BrowserH
  deriving DecidableEq, Repr

/-- What `stopAll` does to one browser handle (lines 1063-1072): a graceful
`close`, escalation to `SIGKILL` on the close failing when a process handle
exists, or nothing further when none does. -/
inductive Fate where
  | closed : Fate
  | killed : Fate
  | leftRunning : Fate
  deriving DecidableEq, Repr

def browserFate (b : BrowserH) : Fate :=
  if b.closeOk then Fate.closed
  else if b.hasProc then Fate.killed
  else Fate.leftRunning

/-- Observable effect of `stopAll`. -/
structure StopReport where
  registryAfter : List Job
  jobsAfter : List Job
  fates : List (List Fate)
  deriving Repr

/-- `stopAll` (lines 1059-1076): for every registered job, set its
cancellation flag, then close each of its browsers with the kill-signal
fallback; finally `JOBS.clear()` empties the registry.  The mutated job
objects (`jobsAfter`) survive in the workers that hold them. -/
def stopAllRun (registry : List Job) : StopReport :=
  { registryAfter := []
  , jobsAfter := registry.map fun j => { j with stopRequested := true }
  , fates := registry.map fun j => j.browsers.map browserFate }

/-! ### Claim theorems -/

/-- C7: in `startJoinGroups`, a session whose profile directory does not
exist yields exactly one Outcome, with `ok = false` and summary
`{success: 0, failed: 1, total: 1}`, and no group link is navigated for that
session. -/
theorem claim7_missing_profile (sessName : String) (assigned : List String)
    (linkEnv : Nat → JEnvLink) (stop : Nat → Bool) :
    joinSessionItem sessName false assigned linkEnv stop
      = ({ session := sessName, ok := false
         , message := "Session folder tidak ditemukan"
         , summary := { success := 0, failed := 1, total := 1 }
         , groups := [] }, 0) := rfl

theorem joinLinksLoop_counts (linkEnv : Nat → JEnvLink) (stop : Nat → Bool) :
    ∀ (links : List String) (i : Nat),
      (joinLinksLoop linkEnv stop i links).success
          + (joinLinksLoop linkEnv stop i links).failed
        = (joinLinksLoop linkEnv stop i links).groups.length := by
  intro links
  induction links with
  | nil => intro i; rfl
  | cons link rest ih =>
    intro i
    have h := ih (i + 1)
    rw [joinLinksLoop]
    by_cases hs : stop i = true
    · rw [if_pos hs]
      rfl
    · rw [if_neg hs]
      by_cases hg : (joinLinkStep link (linkEnv i)).ok = true
      · simp [hg]
        omega
      · simp [hg]
        omega

/-- C10: every per-session Outcome emitted in `startJoinGroups` for a
session whose profile directory exists satisfies
`summary.success + summary.failed = summary.total` and
`summary.total = groups.length`, for every cancellation pattern (the loop
may break early at any link index). -/
theorem claim10_join_summary (sessName : String) (assigned : List String)
    (linkEnv : Nat → JEnvLink) (stop : Nat → Bool) :
    ((joinSessionItem sessName true assigned linkEnv stop).1.summary.success
        + (joinSessionItem sessName true assigned linkEnv stop).1.summary.failed
      = (joinSessionItem sessName true assigned linkEnv stop).1.summary.total)
    ∧ ((joinSessionItem sessName true assigned linkEnv stop).1.summary.total
      = (joinSessionItem sessName true assigned linkEnv stop).1.groups.length) := by
  constructor
  · rfl
  · simp only [joinSessionItem]
    exact joinLinksLoop_counts linkEnv stop assigned 0

/-- C4: `stopAll` sets every registered job's cancellation flag, closes
every owned browser or escalates to a kill signal when the graceful close
fails (given that every handle has a process handle, as every browser in
this program is launched rather than connected), and leaves the registry
with zero jobs and zero tracked browsers. -/
theorem claim4_stopAll (registry : List Job)
    (hproc : ∀ j ∈ registry, ∀ b ∈ j.browsers, b.hasProc = true) :
    (stopAllRun registry).registryAfter = []
    ∧ ((stopAllRun registry).registryAfter.map fun j => j.browsers).flatten = []
    ∧ (∀ j ∈ (stopAllRun registry).jobsAfter, j.stopRequested = true)
    ∧ (∀ j ∈ registry, ∀ b ∈ j.browsers,
        (b.closeOk = true → browserFate b = Fate.closed)
        ∧ (b.closeOk = false → browserFate b = Fate.killed)) := by
  refine ⟨rfl, rfl, ?_, ?_⟩
  · intro j hj
    rcases List.mem_map.mp hj with ⟨j0, _, rfl⟩
    rfl
  · intro j hj b hb
    constructor
    · intro hc
      simp [browserFate, hc]
    · intro hc
      simp [browserFate, hc, hproc j hj b hb]

theorem claim4_stopAll_witness :
    (stopAllRun [{ stopRequested := false, browsers := [{ closeOk := true, hasProc := true }] }
               , { stopRequested := false, browsers := [{ closeOk := false, hasProc := true }] }]).registryAfter = []
    ∧ browserFate { closeOk := false, hasProc := true } = Fate.killed := by
  have h := claim4_stopAll
    [{ stopRequested := false, browsers := [{ closeOk := true, hasProc := true }] }
    , { stopRequested := false, browsers := [{ closeOk := false, hasProc := true }] }]
    (by decide)
  refine ⟨h.1, ?_⟩
  exact (h.2.2.2 { stopRequested := false, browsers := [{ closeOk := false, hasProc := true }] }
    (by decide) { closeOk := false, hasProc := true } (by decide)).2 rfl

/-- C1: the claim fails on the second `startCreateSessions` definition: its
`Promise.all(workers)` is not awaited (route.ts line 681), so the call
resolves while every spawned worker is still suspended at its first `await`;
for one account and concurrency 1 the returned results list has 0 Outcomes,
although the worker, once it does run, pushes exactly 1 Outcome for the
item in every environment. -/
theorem claim1_fire_and_forget :
    (∀ envs : Nat → CEnvB,
      (startCreateSessionsBReturn "u1" [{ nomorAkun := "111", email := "a@x.com", password := "p" }]
        1 envs).results.length = 0)
    ∧ (∀ (acc : Account) (sessionPath : String) (e : CEnvB),
      (pushesOf (createItemEventsB acc sessionPath e)).length = 1) := by
  constructor
  · intro envs
    rfl
  · intro acc sessionPath e
    rcases e with ⟨l, n, g, a, lf, t, p⟩
    cases l <;> cases n <;> cases g <;> cases a <;> cases lf <;> cases t <;> cases p <;> rfl

theorem length_filter_bool {α : Type} (f : α → Bool) :
    ∀ l : List α, (l.filter f).length + (l.filter fun x => !f x).length = l.length := by
  intro l
  induction l with
  | nil => rfl
  | cons x t ih =>
    cases hx : f x
    · simp [List.filter_cons, hx]
      omega
    · simp [List.filter_cons, hx]
      omega

theorem post_counts_split :
    ∀ rs : List PostResult,
      (mkPostSummary rs).success + (mkPostSummary rs).failed
        = (rs.filter isTopLevelOutcome).length := by
  intro rs
  induction rs with
  | nil => rfl
  | cons r t ih =>
    simp only [mkPostSummary, List.filter_cons] at ih ⊢
    cases hr : okField r with
    | none => simp [isTopLevelOutcome, hr, ih]
    | some b =>
      cases b
      · simp [isTopLevelOutcome, hr] at ih ⊢
        omega
      · simp [isTopLevelOutcome, hr] at ih ⊢
        omega

/-- C2: in every Summary returned by the create-sessions orchestrations and
by `startPostAndComment`, `success + failed` equals the number of top-level
Outcomes in the returned results list (for create-sessions every returned
record is a top-level Outcome; in post-and-comment the records carrying an
`ok` flag are the Outcomes, while the auxiliary `{post, comment, message}`
records carry no `ok` and are counted by neither filter). -/
theorem claim2_summary_invariant :
    (∀ (userId : String) (accounts : List Account) (envs : Nat → CEnvA) (claimed : Nat),
      (startCreateSessionsA userId accounts envs claimed).summary.success
          + (startCreateSessionsA userId accounts envs claimed).summary.failed
        = (startCreateSessionsA userId accounts envs claimed).results.length)
    ∧ (∀ (userId : String) (accounts : List Account) (concurrency : Nat) (envs : Nat → CEnvB),
      (startCreateSessionsBReturn userId accounts concurrency envs).summary.success
          + (startCreateSessionsBReturn userId accounts concurrency envs).summary.failed
        = (startCreateSessionsBReturn userId accounts concurrency envs).results.length)
    ∧ (∀ (sessionNames : List String) (envs : Nat → PEnvSession) (claimed : Nat),
      (startPostAndCommentRun sessionNames envs claimed).summary.success
          + (startPostAndCommentRun sessionNames envs claimed).summary.failed
        = ((startPostAndCommentRun sessionNames envs claimed).results.filter
            isTopLevelOutcome).length) := by
  refine ⟨?_, ?_, ?_⟩
  · intro userId accounts envs claimed
    simp only [startCreateSessionsA, mkSummary]
    exact length_filter_bool (fun r : CreateOutcome => r.ok) _
  · intro userId accounts concurrency envs
    simp only [startCreateSessionsBReturn, mkSummary]
    exact length_filter_bool (fun r : CreateOutcome => r.ok) _
  · intro sessionNames envs claimed
    simp only [startPostAndCommentRun]
    exact post_counts_split _

/-- C3 counterexample: in variant A (route.ts lines 118-168) an exception
thrown by `browser.newPage()` after a successful launch jumps to the outer
catch, which pushes a Failed Outcome but never reaches `browser.close()`:
the browser launched for the item stays open, contradicting the claim that
it is closed on every exit path. -/
theorem claim3_counterexample :
    (createItemA { nomorAkun := "111", email := "a@x.com", password := "p" }
        "./data/u1/111"
        { launchOk := true, newPageOk := false, gotoOk := true
        , loginFormOk := true, typeOk := true, closeOk := true }).launched = true
    ∧ (createItemA { nomorAkun := "111", email := "a@x.com", password := "p" }
        "./data/u1/111"
        { launchOk := true, newPageOk := false, gotoOk := true
        , loginFormOk := true, typeOk := true, closeOk := true }).leftOpen = true
    ∧ (createItemA { nomorAkun := "111", email := "a@x.com", password := "p" }
        "./data/u1/111"
        { launchOk := true, newPageOk := false, gotoOk := true
        , loginFormOk := true, typeOk := true, closeOk := true }).outcomes
      = [failRecA { nomorAkun := "111", email := "a@x.com", password := "p" }] :=
  ⟨rfl, rfl, rfl⟩

/-- C3 amended: in both session-creation variants every exception during the
per-item sequence is caught and a Failed Outcome is recorded, and nothing
propagates out of the worker; the browser is closed on every exit path in
the `finally`-based variant B, while in variant A it is left open exactly
when it was launched and either opening the page or the final
`browser.close()` fails. -/
theorem claim3_amended :
    (∀ (acc : Account) (sessionPath : String) (e : CEnvA),
      (createItemA acc sessionPath e).outcomes ≠ []
        ∧ ((createItemA acc sessionPath e).leftOpen
            = (e.launchOk && (!e.newPageOk || !e.closeOk)))
        ∧ (e.launchOk = false ∨ e.newPageOk = false ∨ e.loginFormOk = false
              ∨ e.typeOk = false ∨ e.closeOk = false →
            failRecA acc ∈ (createItemA acc sessionPath e).outcomes))
    ∧ (∀ (acc : Account) (sessionPath : String) (e : CEnvB),
      (createItemB acc sessionPath e).outcomes.length = 1
        ∧ (createItemB acc sessionPath e).leftOpen = false
        ∧ (e.launchOk = false ∨ e.newPageOk = false ∨ e.gotoOk = false →
            (createItemB acc sessionPath e).outcomes = [failLaunchB acc])) := by
  constructor
  · intro acc sessionPath e
    rcases e with ⟨l, n, g, lf, t, c⟩
    cases l <;> cases n <;> cases lf <;> cases t <;> cases c <;>
      simp [createItemA, failRecA, okRecA]
  · intro acc sessionPath e
    rcases e with ⟨l, n, g, a, lf, t, p⟩
    cases l <;> cases n <;> cases g <;> cases a <;> cases lf <;> cases t <;> cases p <;>
      simp [createItemB, failLaunchB, okExistB, okLoginB, failLoginB]

theorem claim3_amended_witness :
    failRecA { nomorAkun := "222", email := "b@x.com", password := "q" }
        ∈ (createItemA { nomorAkun := "222", email := "b@x.com", password := "q" }
            "./data/u1/222"
            { launchOk := true, newPageOk := true, gotoOk := true
            , loginFormOk := false, typeOk := true, closeOk := true }).outcomes
    ∧ (createItemB { nomorAkun := "222", email := "b@x.com", password := "q" }
        "./data/u1/222"
        { launchOk := false, newPageOk := true, gotoOk := true, alreadyAuthed := false
        , loginFormOk := true, typeOk := true, postLoginAuthed := true }).outcomes
      = [failLaunchB { nomorAkun := "222", email := "b@x.com", password := "q" }] := by
  constructor
  · exact (claim3_amended.1 { nomorAkun := "222", email := "b@x.com", password := "q" }
      "./data/u1/222"
      { launchOk := true, newPageOk := true, gotoOk := true
      , loginFormOk := false, typeOk := true, closeOk := true }).2.2
      (Or.inr (Or.inr (Or.inl rfl)))
  · exact (claim3_amended.2 { nomorAkun := "222", email := "b@x.com", password := "q" }
      "./data/u1/222"
      { launchOk := false, newPageOk := true, gotoOk := true, alreadyAuthed := false
      , loginFormOk := true, typeOk := true, postLoginAuthed := true }).2.2
      (Or.inl rfl)

/-- C5 counterexample: in the variant that has the authenticated-marker
probe (variant B), the initial navigation is not protected by a catch
(route.ts line 637): when `page.goto` fails, a Failed Outcome is recorded
and the probe is never reached, contradicting the claim that navigation
failure is tolerated for every account item. -/
theorem claim5_counterexample :
    (createItemB { nomorAkun := "333", email := "c@x.com", password := "r" }
        "./data/u1/333"
        { launchOk := true, newPageOk := true, gotoOk := false, alreadyAuthed := true
        , loginFormOk := true, typeOk := true, postLoginAuthed := true }).probed = false
    ∧ (createItemB { nomorAkun := "333", email := "c@x.com", password := "r" }
        "./data/u1/333"
        { launchOk := true, newPageOk := true, gotoOk := false, alreadyAuthed := true
        , loginFormOk := true, typeOk := true, postLoginAuthed := true }).outcomes
      = [failLaunchB { nomorAkun := "333", email := "c@x.com", password := "r" }] :=
  ⟨rfl, rfl⟩

/-- C5 amended: in variant A the initial navigation failure is suppressed by
`.catch` and the workflow proceeds to the login-form wait (that variant has
no authenticated-marker probe); in the probe variant B a navigation failure
is not tolerated: it is caught into a Failed Outcome and the probe is never
reached. -/
theorem claim5_amended :
    (∀ (acc : Account) (sessionPath : String) (e : CEnvA),
      e.launchOk = true → e.newPageOk = true →
        (createItemA acc sessionPath e).reachedLoginWait = true)
    ∧ (∀ (acc : Account) (sessionPath : String) (e : CEnvB),
      e.launchOk = true → e.newPageOk = true → e.gotoOk = false →
        (createItemB acc sessionPath e).probed = false
          ∧ (createItemB acc sessionPath e).outcomes = [failLaunchB acc]) := by
  constructor
  · intro acc sessionPath e hl hn
    rcases e with ⟨l, n, g, lf, t, c⟩
    subst hl
    subst hn
    cases lf <;> cases t <;> cases c <;> simp [createItemA]
  · intro acc sessionPath e hl hn hg
    rcases e with ⟨l, n, g, a, lf, t, p⟩
    subst hl
    subst hn
    subst hg
    exact ⟨rfl, rfl⟩

theorem claim5_amended_witness :
    (createItemA { nomorAkun := "444", email := "d@x.com", password := "s" }
        "./data/u1/444"
        { launchOk := true, newPageOk := true, gotoOk := false
        , loginFormOk := true, typeOk := true, closeOk := true }).reachedLoginWait = true
    ∧ (createItemB { nomorAkun := "444", email := "d@x.com", password := "s" }
        "./data/u1/444"
        { launchOk := true, newPageOk := true, gotoOk := false, alreadyAuthed := false
        , loginFormOk := true, typeOk := true, postLoginAuthed := true }).probed = false := by
  constructor
  · exact claim5_amended.1 { nomorAkun := "444", email := "d@x.com", password := "s" }
      "./data/u1/444"
      { launchOk := true, newPageOk := true, gotoOk := false
      , loginFormOk := true, typeOk := true, closeOk := true } rfl rfl
  · exact (claim5_amended.2 { nomorAkun := "444", email := "d@x.com", password := "s" }
      "./data/u1/444"
      { launchOk := true, newPageOk := true, gotoOk := false, alreadyAuthed := false
      , loginFormOk := true, typeOk := true, postLoginAuthed := true } rfl rfl rfl).1

theorem gbs_foldl (names : List String) (k : Nat) (hk : k ≠ 0) :
    ∀ (ps : List (Nat × String)) (acc : String → List String) (name : String),
      ps.foldl (gbsStep names k) acc name
        = acc name
            ++ ((ps.filter fun p => names.get? (p.1 / k) == some name).map Prod.snd) := by
  intro ps
  induction ps with
  | nil => intro acc name; simp
  | cons p t ih =>
    intro acc name
    rw [List.foldl_cons, List.filter_cons, ih]
    cases hg : names.get? (p.1 / k) with
    | none =>
      have h1 : gbsStep names k acc p = acc := by
        unfold gbsStep
        rw [if_neg hk, hg]
      rw [h1]
      simp
    | some n =>
      have h1 : gbsStep names k acc p
          = fun nm => if nm = n then acc nm ++ [p.2] else acc nm := by
        unfold gbsStep
        rw [if_neg hk, hg]
      rw [h1]
      by_cases hn : name = n
      · subst hn
        simp
      · have hpred : ((some n : Option String) == some name) = false := by
          rw [beq_eq_false_iff_ne]
          intro hc
          exact hn (Option.some_injective _ hc).symm
        rw [hpred]
        simp [hn]

theorem groupsBySession_eq (names links : List String) (k : Nat) (hk : k ≠ 0)
    (name : String) :
    groupsBySession names links k name
      = ((links.enum.filter fun p => names.get? (p.1 / k) == some name).map Prod.snd) := by
  unfold groupsBySession
  rw [gbs_foldl names k hk links.enum (fun _ => []) name]
  simp

/-- C6: for `groupsPerSession = k` with `k ≥ 1` and pairwise-distinct group
links, the partition computed once by `startJoinGroups` before any worker
starts assigns the link at index `i` to the bucket of
`sessionNames[i / k]` when `i / k` is in range, and drops it (it appears in
no bucket) otherwise. -/
theorem claim6_partition (sessionNames groupLinks : List String) (k : Nat)
    (hk : 0 < k) (hlinks : groupLinks.Nodup) :
    (∀ (i : Nat) (hi : i < groupLinks.length) (hj : i / k < sessionNames.length),
      groupLinks.get ⟨i, hi⟩
        ∈ groupsBySession sessionNames groupLinks k (sessionNames.get ⟨i / k, hj⟩))
    ∧ (∀ (i : Nat) (hi : i < groupLinks.length), sessionNames.length ≤ i / k →
      ∀ name, groupLinks.get ⟨i, hi⟩ ∉ groupsBySession sessionNames groupLinks k name) := by
  have hk0 : k ≠ 0 := Nat.pos_iff_ne_zero.mp hk
  constructor
  · intro i hi hj
    rw [groupsBySession_eq sessionNames groupLinks k hk0]
    apply List.mem_map.mpr
    refine ⟨(i, groupLinks.get ⟨i, hi⟩), ?_, rfl⟩
    apply List.mem_filter.mpr
    constructor
    · exact List.mem_enum_iff_get?.mpr (List.get?_eq_get hi)
    · have : sessionNames.get? (i / k) = some (sessionNames.get ⟨i / k, hj⟩) :=
        List.get?_eq_get hj
      rw [this]
      simp
  · intro i hi hrange name hmem
    rw [groupsBySession_eq sessionNames groupLinks k hk0] at hmem
    rcases List.mem_map.mp hmem with ⟨p, hp, hsnd⟩
    rcases List.mem_filter.mp hp with ⟨henum, hpred⟩
    have hget : groupLinks.get? p.1 = some p.2 := List.mem_enum_iff_get?.mp henum
    have hlt : p.1 < groupLinks.length := by
      by_contra hge
      rw [List.get?_eq_none.mpr (Nat.le_of_not_lt hge)] at hget
      simp at hget
    have hpe : groupLinks.get ⟨p.1, hlt⟩ = p.2 := by
      have := List.get?_eq_get hlt
      rw [this] at hget
      exact Option.some_injective _ hget
    have hsame : groupLinks.get ⟨p.1, hlt⟩ = groupLinks.get ⟨i, hi⟩ := by
      rw [hpe, hsnd]
    have hidx : (⟨p.1, hlt⟩ : Fin groupLinks.length) = ⟨i, hi⟩ :=
      (hlinks.get_inj_iff).mp hsame
    have hp1 : p.1 = i := congrArg Fin.val hidx
    have hsome : (sessionNames.get? (p.1 / k)).isSome = true := by
      cases hq : sessionNames.get? (p.1 / k) with
      | none => rw [hq] at hpred; simp at hpred
      | some q => rfl
    rw [hp1] at hsome
    have : i / k < sessionNames.length := by
      by_contra hge
      rw [List.get?_eq_none.mpr (Nat.le_of_not_lt hge)] at hsome
      simp at hsome
    omega

theorem claim6_partition_witness :
    "l3" ∈ groupsBySession ["A", "B"] ["l1", "l2", "l3"] 2 "B"
    ∧ ¬ "l3" ∈ groupsBySession ["A"] ["l1", "l2", "l3"] 2 "B" := by
  constructor
  · exact (claim6_partition ["A", "B"] ["l1", "l2", "l3"] 2 (by decide) (by decide)).1
      2 (by decide) (by decide)
  · exact (claim6_partition ["A"] ["l1", "l2", "l3"] 2 (by decide) (by decide)).2
      2 (by decide) (by decide) "B"

/-- The group URL carried by a pushed record, if any: only the
`{ session, group, ok }` records carry one. -/
def groupUrlOf : PostResult → Option String
  | PostResult.groupDone _ g _ => some g
  | _ => none

theorem runAttemptsFrom_no_group (att : Nat → AttemptRes) :
    ∀ (r a : Nat), ((runAttemptsFrom att a r).1.filterMap groupUrlOf) = [] := by
  intro r
  induction r with
  | zero => intro a; rfl
  | succ r0 ih =>
    intro a
    rw [runAttemptsFrom]
    cases att a with
    | stopped => rfl
    | success c => rfl
    | failure m =>
      by_cases hr : r0 = 0
      · subst hr
        rfl
      · simpa [hr] using ih (a + 1)

theorem attemptPosting_no_group (att : Nat → AttemptRes) :
    ((attemptPostingWithRetries att).1.filterMap groupUrlOf) = [] :=
  runAttemptsFrom_no_group att 2 1

theorem postUrlsLoop_groups (sessName : String) (atts : Nat → Nat → AttemptRes) :
    ∀ (urls : List String) (i : Nat),
      ((postUrlsLoop sessName (fun _ => false) atts i urls).filterMap groupUrlOf) = urls := by
  intro urls
  induction urls with
  | nil => intro i; rfl
  | cons url rest ih =>
    intro i
    rw [postUrlsLoop]
    simp only [if_neg (by simp : ¬((fun _ : Nat => false) i = true))]
    rw [List.filterMap_append, attemptPosting_no_group]
    simp [groupUrlOf, ih (i + 1)]

/-- C8 counterexample: the discovery filter is the end-anchored regex
`/facebook\.com\/groups\/\d+\/?$/`, so a URL on a different host whose text
merely ends with `facebook.com/groups/123` is added to the target list even
though it is not a facebook.com group URL with path `/groups/<digits>`:
the claimed "only if" direction fails. -/
theorem claim8_counterexample :
    urlsPatternTest "https://evil.com/facebook.com/groups/123" = true
    ∧ "https://evil.com/facebook.com/groups/123"
        ∈ ["https://evil.com/facebook.com/groups/123"].filter urlsPatternTest
    ∧ isNumericGroupRoot "https://evil.com/facebook.com/groups/123" = false := by
  refine ⟨by decide, by decide, by decide⟩

/-- C8 amended: a scanned anchor URL is added to the target list iff it ends
with `facebook.com/groups/` followed by one or more digits and at most one
trailing slash; every URL that is exactly a numeric group root passes this
test (but the converse fails, as the test is anchored only at the end of the
string), and in the Post+Comment workflow the group URLs attempted for a
session are exactly the scanned anchors passing the test. -/
theorem claim8_amended :
    (∀ s : String, urlsPatternTest s = true ↔
      ∃ a d : List Char, d ≠ [] ∧ (∀ c ∈ d, c.isDigit = true)
        ∧ (s.data = a ++ grpLit ++ d ∨ s.data = a ++ grpLit ++ d ++ ['/']))
    ∧ (∀ s : String, isNumericGroupRoot s = true → urlsPatternTest s = true)
    ∧ (∀ (sessName : String) (anchors : List String) (atts : Nat → Nat → AttemptRes),
      ((postSessionItem sessName
          { dirExists := true, stoppedEarly := false, scanOk := true
          , anchors := anchors, stopAtUrl := fun _ => false
          , atts := atts }).filterMap groupUrlOf)
        = anchors.filter urlsPatternTest) := by
  refine ⟨urlsPatternTest_iff, numericGroupRoot_passes, ?_⟩
  intro sessName anchors atts
  simp only [postSessionItem]
  exact postUrlsLoop_groups sessName atts (anchors.filter urlsPatternTest) 0

theorem claim8_amended_witness :
    urlsPatternTest "https://www.facebook.com/groups/456" = true :=
  claim8_amended.2.1 "https://www.facebook.com/groups/456" (by decide)

end FBBot
